import Mathlib

/-
  Verification development for the DataverseV1 ingestion core.

  Shallow embedding of:
  - backend/app/etl/extract/file_handlers.py  (safe_json_to_df, read_json,
    read_html_safely, read_xml_safely, READERS)
  - backend/app/utils/mongo_sanitize.py       (sanitize_for_mongo)
  - backend/app/services/schema_diff_service.py
    (_extract_fields_from_schema, compare_schemas)
  - backend/app/services/dynamic_etl_adapter.py (run_dynamic_etl_bytes,
    tail of the success branch)
-/

namespace Dataverse

/-- Values produced by Python json.load: null, booleans, integers, strings,
arrays and string-keyed objects.  (Float literals are not needed by any of
the verified properties and are omitted from the universe; every claim below
quantifies over this JSON universe.)  Object entry lists represent Python
dicts: keys are distinct and lookup takes the first match. -/
inductive JsonVal where
  | jnull
  | jbool (b : Bool)
  | jint (n : Int)
  | jstr (s : String)
  | jarr (items : List JsonVal)
  | jobj (entries : List (String × JsonVal))

/-- Escapes one character the way json.dumps does for the characters that can
occur in our string universe (backslash, double quote, common control chars). -/
def jsonEscapeChar (c : Char) : String :=
  if c = '\\' then "\\\\"
  else if c = '"' then "\\\""
  else if c = '\n' then "\\n"
  else if c = '\t' then "\\t"
  else if c = '\r' then "\\r"
  else String.singleton c

/-- Escapes a string as json.dumps does inside double quotes. -/
def jsonEscape (s : String) : String :=
  s.data.foldl (fun a c => a ++ jsonEscapeChar c) ""

mutual

/-- Embeds Python json.dumps with its default separators (", " and ": "),
as called by safe_json_to_df on nested dict/list leaf values. -/
def jsonDumps : JsonVal → String
  | .jnull => "null"
  | .jbool true => "true"
  | .jbool false => "false"
  | .jint n => toString n
  | .jstr s => "\"" ++ jsonEscape s ++ "\""
  | .jarr xs => "[" ++ jsonDumpsItems xs ++ "]"
  | .jobj kvs => "\x7b" ++ jsonDumpsEntries kvs ++ "\x7d"

/-- Comma-joined dumps of array items. -/
def jsonDumpsItems : List JsonVal → String
  | [] => ""
  | [x] => jsonDumps x
  | x :: y :: rest => jsonDumps x ++ ", " ++ jsonDumpsItems (y :: rest)

/-- Comma-joined dumps of object entries. -/
def jsonDumpsEntries : List (String × JsonVal) → String
  | [] => ""
  | [p] => "\"" ++ jsonEscape p.1 ++ "\": " ++ jsonDumps p.2
  | p :: q :: rest =>
      "\"" ++ jsonEscape p.1 ++ "\": " ++ jsonDumps p.2 ++ ", " ++
        jsonDumpsEntries (q :: rest)

end

/-- A pandas DataFrame as produced by the extraction layer: an ordered list of
column labels and a list of rows, each row listing one cell per column.
Pandas NaN / None cells are both modelled as jnull (the adapter converts both
to None before persistence). -/
structure DataFrame where
  cols : List String
  rows : List (List JsonVal)

/-- The empty DataFrame, pd.DataFrame(). -/
def emptyDF : DataFrame := ⟨[], []⟩

/-- Ordered first-seen union of key lists (pandas column resolution for a
list of record dicts). -/
def addKeys (acc : List String) (ks : List String) : List String :=
  ks.foldl (fun a k => if k ∈ a then a else a ++ [k]) acc

/-- Columns pandas assigns to pd.DataFrame(list-of-dicts): union of the keys
in order of first appearance. -/
def recordCols (records : List (List (String × JsonVal))) : List String :=
  records.foldl (fun a r => addKeys a (r.map Prod.fst)) []

/-- Embeds pd.DataFrame(records) for a list of record dicts: columns are the
first-seen union of keys, and a key absent from a record yields a null cell
(pandas fills NaN). -/
def pd_DataFrame_ofRecords (records : List (List (String × JsonVal))) :
    DataFrame :=
  let cols := recordCols records
  ⟨cols, records.map (fun r => cols.map (fun c => ((r.lookup c).getD .jnull)))⟩

/-- Embeds pd.DataFrame(dict-of-columns).  Pandas raises ValueError when the
columns do not all have the same length; that failure is the error case. -/
def pd_DataFrame_ofColumns (cs : List (String × List JsonVal)) :
    Except String DataFrame :=
  match cs with
  | [] => .ok ⟨[], []⟩
  | (k, v) :: rest =>
      if rest.all (fun p => p.2.length == v.length) then
        .ok ⟨k :: rest.map Prod.fst,
             (List.range v.length).map
               (fun i => ((k, v) :: rest).map (fun p => p.2.getD i .jnull))⟩
      else .error "ValueError: All arrays must be of the same length"

/-- Leaf treatment inside a mapping element of safe_json_to_df Case 1:
a dict or list value is serialized with json.dumps, anything else passes
through. -/
def serializeLeaf : JsonVal → JsonVal
  | .jobj o => .jstr (jsonDumps (.jobj o))
  | .jarr a => .jstr (jsonDumps (.jarr a))
  | v => v

/-- Loop body of safe_json_to_df Case 1: a mapping element keeps its keys
with nested values stringified; a non-mapping element is wrapped as the
record with single key "value". -/
def normalizeElement : JsonVal → List (String × JsonVal)
  | .jobj kvs => kvs.map (fun p => (p.1, serializeLeaf p.2))
  | other => [("value", other)]

/-- Embeds safe_json_to_df from file_handlers.py.
Case 1 (list): each element becomes a record via normalizeElement and the
records go to pd.DataFrame.  Case 2 (dict): max_len is the maximum length of
the list-valued entries with default 1 when no entry is a list; list entries
are right-padded with None to max_len, non-list entries become the value
followed by max_len - 1 Nones (Python [None] * (max_len - 1) is empty when
max_len is 0, exactly like truncated Nat subtraction).  Case 3 (primitive):
pd.DataFrame([data]), a single row whose single column carries the integer
label 0 (rendered here as the string "0"). -/
def safe_json_to_df (data : JsonVal) : Except String DataFrame :=
  match data with
  | .jarr items =>
      .ok (pd_DataFrame_ofRecords (items.map normalizeElement))
  | .jobj kvs =>
      let listLens := kvs.filterMap
        (fun p => match p.2 with | .jarr xs => some xs.length | _ => none)
      let maxLen := match listLens with
        | [] => 1
        | l => l.foldl max 0
      pd_DataFrame_ofColumns (kvs.map (fun p =>
        match p.2 with
        | .jarr xs => (p.1, xs ++ List.replicate (maxLen - xs.length) JsonVal.jnull)
        | v => (p.1, [v] ++ List.replicate (maxLen - 1) JsonVal.jnull)))
  | prim => .ok ⟨["0"], [[prim]]⟩

/-! Reader registry (file_handlers.py).  Files on disk are modelled by what
each external decoder yields for them: a field is none exactly when the
corresponding library call raises for that file. -/

/-- What the external decoding libraries produce for one on-disk file.
A none field means the corresponding library call raises on this file. -/
structure PFile where
  jsonData : Option JsonVal
  csvTable : Option DataFrame
  tsvTable : Option DataFrame
  htmlLxml : Option (List DataFrame)
  htmlHtml5lib : Option (List DataFrame)
  htmlDefault : Option (List DataFrame)
  xmlTable : Option DataFrame
  xlsxTable : Option DataFrame
  xlsTable : Option DataFrame
  parquetTable : Option DataFrame

/-- A file system: paths map to files; none means the path does not exist,
so open() and the pandas readers raise FileNotFoundError. -/
abbrev FileSystem := String → Option PFile

/-- A reader registry entry: given the file system and a path, either return
a DataFrame or fail with the raised exception. -/
abbrev Reader := FileSystem → String → Except String DataFrame

/-- Embeds read_json: opens the path, runs json.load, then safe_json_to_df;
every exception (missing file, JSON parse failure, and even the ValueError
that safe_json_to_df can propagate from pd.DataFrame) is caught and turned
into an empty DataFrame. -/
def read_json : Reader := fun fs path =>
  match fs path with
  | none => .ok emptyDF
  | some f =>
      match f.jsonData with
      | none => .ok emptyDF
      | some data =>
          match safe_json_to_df data with
          | .ok df => .ok df
          | .error _ => .ok emptyDF

/-- Models the external pd.read_csv, bound directly into READERS: it raises
when the path does not exist or the file cannot be parsed (the repository
wraps other pandas readers in try/except precisely because they raise). -/
def pd_read_csv : Reader := fun fs path =>
  match fs path with
  | none => .error "FileNotFoundError"
  | some f =>
      match f.csvTable with
      | some t => .ok t
      | none => .error "pandas.errors.ParserError"

/-- Models pd.read_csv(path, sep tab), the tsv entry; raises like read_csv. -/
def pd_read_csv_tab : Reader := fun fs path =>
  match fs path with
  | none => .error "FileNotFoundError"
  | some f =>
      match f.tsvTable with
      | some t => .ok t
      | none => .error "pandas.errors.ParserError"

/-- Models pd.read_excel(path, engine openpyxl); raises on failure. -/
def pd_read_excel_openpyxl : Reader := fun fs path =>
  match fs path with
  | none => .error "FileNotFoundError"
  | some f =>
      match f.xlsxTable with
      | some t => .ok t
      | none => .error "openpyxl read error"

/-- Models pd.read_excel(path, engine xlrd, dtype str); raises on failure. -/
def pd_read_excel_xlrd : Reader := fun fs path =>
  match fs path with
  | none => .error "FileNotFoundError"
  | some f =>
      match f.xlsTable with
      | some t => .ok t
      | none => .error "xlrd read error"

/-- Models pd.read_parquet; raises on failure. -/
def pd_read_parquet : Reader := fun fs path =>
  match fs path with
  | none => .error "FileNotFoundError"
  | some f =>
      match f.parquetTable with
      | some t => .ok t
      | none => .error "pyarrow read error"

/-- Embeds read_html_safely: tries pd.read_html with flavor bs4/lxml, then
bs4/html5lib, then the default; takes the first call that returns a
non-empty table list, catching every exception; falls back to an empty
DataFrame. -/
def read_html_safely : Reader := fun fs path =>
  match fs path with
  | none => .ok emptyDF
  | some f =>
      match f.htmlLxml with
      | some (t :: _) => .ok t
      | _ =>
          match f.htmlHtml5lib with
          | some (t :: _) => .ok t
          | _ =>
              match f.htmlDefault with
              | some (t :: _) => .ok t
              | _ => .ok emptyDF

/-- Embeds read_xml_safely: pd.read_xml with every exception caught and
turned into an empty DataFrame. -/
def read_xml_safely : Reader := fun fs path =>
  match fs path with
  | none => .ok emptyDF
  | some f =>
      match f.xmlTable with
      | some t => .ok t
      | none => .ok emptyDF

/-- Embeds the READERS registry of file_handlers.py in source order.  The
txt/md reader smart_read_combined and the pdf chain (read_pdf_tables or
read_pdf_text_ocr) live in modules absent from the repository snapshot and
enter as parameters. -/
def READERS (smart_read_combined pdf_chain : Reader) : List (String × Reader) :=
  [("json", read_json),
   ("csv", pd_read_csv),
   ("txt", fun fs p => smart_read_combined fs p),
   ("html", fun fs p => read_html_safely fs p),
   ("md", fun fs p => smart_read_combined fs p),
   ("xml", fun fs p => read_xml_safely fs p),
   ("xlsx", fun fs p => pd_read_excel_openpyxl fs p),
   ("xls", fun fs p => pd_read_excel_xlrd fs p),
   ("tsv", fun fs p => pd_read_csv_tab fs p),
   ("pdf", fun fs p => pdf_chain fs p),
   ("parquet", pd_read_parquet)]

/-- Tests whether a reader outcome is a returned row set (ok) rather than a
raised exception. -/
def readerOk : Except String DataFrame → Bool
  | .ok _ => true
  | .error _ => false

/-- A file system with no files at all. -/
def emptyFS : FileSystem := fun _ => none

/-- A trivial stand-in for the readers whose source is not in the snapshot. -/
def stubReader : Reader := fun _ _ => .ok emptyDF

/-! Boundary sanitizer (mongo_sanitize.py) over a Python value universe. -/

/-- A Python float object.  nanNp is the module-level np.nan singleton (the
only object for which the identity test obj is np.nan succeeds); nanOther is
any other float nan object (for example one produced by float() or by
ndarray.tolist()). -/
inductive PFloat where
  | finite (q : Rat)
  | nanNp
  | nanOther
deriving DecidableEq

/-- Result of calling float() on a numpy floating scalar: the numeric value
survives, and a nan payload yields a fresh Python float nan object, never the
np.nan singleton. -/
def pyFloatOf : PFloat → PFloat
  | .finite q => .finite q
  | _ => .nanOther

/-- Python runtime values as seen by sanitize_for_mongo: native scalars,
numpy wrapper scalars (npInt, npFloat, npBool), numpy arrays (npArray holds
the elements as ndarray.tolist() yields them, already native), dicts, lists,
tuples, and a catch-all constructor for any other leaf type. -/
inductive PyVal where
  | pNone
  | pBool (b : Bool)
  | pInt (n : Int)
  | pFloat (x : PFloat)
  | pStr (s : String)
  | npInt (n : Int)
  | npFloat (x : PFloat)
  | npBool (b : Bool)
  | npArray (items : List PyVal)
  | pDict (entries : List (String × PyVal))
  | pList (items : List PyVal)
  | pTuple (items : List PyVal)
  | pOther (tag : String)

mutual

/-- Embeds sanitize_for_mongo from mongo_sanitize.py, clause for clause and
in source order: numpy integer/floating/bool scalars become native int,
float, bool; an ndarray becomes the list of its sanitized tolist() elements;
the np.nan singleton (identity test) becomes None; dicts recurse on values;
lists and tuples become lists of sanitized elements; anything else is
returned unchanged. -/
def sanitize_for_mongo : PyVal → PyVal
  | .npInt n => .pInt n
  | .npFloat x => .pFloat (pyFloatOf x)
  | .npBool b => .pBool b
  | .npArray items => .pList (sanitizeList items)
  | .pFloat .nanNp => .pNone
  | .pDict entries => .pDict (sanitizeEntries entries)
  | .pList items => .pList (sanitizeList items)
  | .pTuple items => .pList (sanitizeList items)
  | v => v

/-- Elementwise sanitize over a list of values. -/
def sanitizeList : List PyVal → List PyVal
  | [] => []
  | v :: rest => sanitize_for_mongo v :: sanitizeList rest

/-- Valuewise sanitize over dict entries. -/
def sanitizeEntries : List (String × PyVal) → List (String × PyVal)
  | [] => []
  | p :: rest => (p.1, sanitize_for_mongo p.2) :: sanitizeEntries rest

end

mutual

/-- True when a value contains no numpy wrapper anywhere (no npInt, npFloat,
npBool, npArray at any depth). -/
def numpyFree : PyVal → Bool
  | .npInt _ => false
  | .npFloat _ => false
  | .npBool _ => false
  | .npArray _ => false
  | .pDict entries => numpyFreeEntries entries
  | .pList items => numpyFreeList items
  | .pTuple items => numpyFreeList items
  | _ => true

/-- numpyFree over list elements. -/
def numpyFreeList : List PyVal → Bool
  | [] => true
  | v :: rest => numpyFree v && numpyFreeList rest

/-- numpyFree over dict entry values. -/
def numpyFreeEntries : List (String × PyVal) → Bool
  | [] => true
  | p :: rest => numpyFree p.2 && numpyFreeEntries rest

end

/-- True for values handled by no clause of sanitize_for_mongo before the
final return: native scalars, strings, and unrecognized leaves. -/
def isPlainLeaf : PyVal → Bool
  | .pNone => true
  | .pBool _ => true
  | .pInt _ => true
  | .pFloat _ => true
  | .pStr _ => true
  | .pOther _ => true
  | _ => false

/-! Dynamic ETL adapter (dynamic_etl_adapter.py), tail of the success
branch of run_dynamic_etl_bytes: schema evolution tracking, record and
schema sanitization, and the returned dictionary. -/

/-- A schema dictionary as handed around by the adapter. -/
abbrev SchemaDict := List (String × PyVal)

/-- Python dict.get with a default. -/
def pyDictGet (d : SchemaDict) (k : String) (dflt : PyVal) : PyVal :=
  match d.lookup k with
  | some v => v
  | none => dflt

/-- Models scalar pd.isna as applied to one record cell: true for None and
for float/numpy-float nan values. -/
def pd_isna : PyVal → Bool
  | .pNone => true
  | .pFloat .nanNp => true
  | .pFloat .nanOther => true
  | .npFloat .nanNp => true
  | .npFloat .nanOther => true
  | _ => false

/-- The dictionary run_dynamic_etl_bytes returns on the success branch.  Its
fields are exactly the keys of the returned dict: structured_data, schema,
row_count, cleaning_stats, parsed_fragments, source_id, schema_version.
There is no field that could carry an error report. -/
structure EtlOutcome where
  structured_data : List (List (String × PyVal))
  schema : PyVal
  row_count : Nat
  cleaning_stats : List (String × PyVal)
  parsed_fragments : List String
  source_id : String
  schema_version : PyVal

/-- Embeds run_dynamic_etl_bytes from the schema evolution tracking step to
the returned dict (the extraction, transform and schema generation
collaborators live in modules absent from the snapshot and enter as the
candidate, records, cleaning_stats and fragments parameters; trackResult is
the outcome of the call _schema_evolution.add_schema(source_id, schema)).
The try/except around tracking logs a warning on failure and continues with
the untracked candidate; the returned schema_version is
schema.get("version", 1) on the schema dict before sanitization. -/
def run_dynamic_etl_tail (source_id : String) (candidate : SchemaDict)
    (trackResult : Except String SchemaDict)
    (records : List (List (String × PyVal)))
    (cleaning_stats : List (String × PyVal))
    (fragments : List String) : EtlOutcome :=
  let schema : SchemaDict :=
    match trackResult with
    | .ok s => s
    | .error _ => candidate
  let sanitized_structured :=
    records.map (fun r => r.map (fun p =>
      (p.1, if pd_isna p.2 then PyVal.pNone else sanitize_for_mongo p.2)))
  { structured_data := sanitized_structured
    schema := sanitize_for_mongo (.pDict schema)
    row_count := sanitized_structured.length
    cleaning_stats := cleaning_stats
    parsed_fragments := fragments
    source_id := source_id
    schema_version := pyDictGet schema "version" (.pInt 1) }

/-- A concrete candidate schema as the generator would emit it for one
upload: fields and counts but, per the specification of the evolution
tracker, no version key (versions are assigned only by the tracker). -/
def exCandidate : SchemaDict :=
  [("source_id", .pStr "s1"),
   ("fields", .pList [.pDict [("name", .pStr "a"), ("type", .pStr "integer"),
                              ("nullable", .pBool false)]]),
   ("row_count", .pInt 2)]

/-- Concrete records for the adapter examples. -/
def exRecords : List (List (String × PyVal)) :=
  [[("a", .pInt 1)], [("a", .pInt 2)]]

/-- Concrete cleaning stats for the adapter examples. -/
def exStats : List (String × PyVal) :=
  [("rows_before", .pInt 2), ("rows_after", .pInt 2)]

/-! Schema diff engine (schema_diff_service.py). -/

/-- Python truthiness of a JSON value: None, False, 0, empty string, empty
list and empty dict are falsy. -/
def pyTruthy : JsonVal → Bool
  | .jnull => false
  | .jbool b => b
  | .jint n => n != 0
  | .jstr s => s != ""
  | .jarr xs => !xs.isEmpty
  | .jobj kvs => !kvs.isEmpty

/-- Python a or b: a when truthy, else b. -/
def pyOr (a b : JsonVal) : JsonVal := if pyTruthy a then a else b

mutual

/-- Models Python equality on JSON values: True equals 1 and False equals 0
(numeric cross-type equality), strings and null compare structurally, lists
compare pointwise, and dicts compare as key sets with equal values (keys in
an object are distinct, so a first-match scan is faithful). -/
def pyEq : JsonVal → JsonVal → Bool
  | .jnull, .jnull => true
  | .jbool a, .jbool b => a == b
  | .jbool a, .jint m => (if a then (1 : Int) else 0) == m
  | .jint n, .jbool b => n == (if b then (1 : Int) else 0)
  | .jint n, .jint m => n == m
  | .jstr s, .jstr t => s == t
  | .jarr xs, .jarr ys => pyEqList xs ys
  | .jobj a, .jobj b => a.length == b.length && pyObjSub a b
  | _, _ => false
termination_by a b => sizeOf a + sizeOf b
decreasing_by all_goals (simp_wf; try omega)

/-- Pointwise Python equality of two lists. -/
def pyEqList : List JsonVal → List JsonVal → Bool
  | [], [] => true
  | x :: xs, y :: ys => pyEq x y && pyEqList xs ys
  | _, _ => false
termination_by xs ys => sizeOf xs + sizeOf ys
decreasing_by all_goals (simp_wf; try omega)

/-- Every entry of the first dict appears in the second with an equal
value. -/
def pyObjSub : List (String × JsonVal) → List (String × JsonVal) → Bool
  | [], _ => true
  | (k, v) :: rest, b => pyObjFind k v b && pyObjSub rest b
termination_by a b => sizeOf a + sizeOf b
decreasing_by all_goals (simp_wf; try omega)

/-- Scans a dict for an entry with the given key and a value equal in the
Python sense. -/
def pyObjFind : String → JsonVal → List (String × JsonVal) → Bool
  | _, _, [] => false
  | k, v, (k2, v2) :: rest => (k == k2 && pyEq v v2) || pyObjFind k v rest
termination_by _ v b => sizeOf v + sizeOf b
decreasing_by all_goals (simp_wf; try omega)

end

/-- Whether a value may be used as a Python dict key: lists and dicts are
unhashable and raise TypeError. -/
def pyHashable : JsonVal → Bool
  | .jarr _ => false
  | .jobj _ => false
  | _ => true

/-- One field descriptor: a Python dict with string keys. -/
abbrev FieldObj := List (String × JsonVal)

/-- The name-to-field-object dict built by _extract_fields_from_schema.
Keys are whatever the name resolution produced (usually strings, but any
truthy hashable value can occur). -/
abbrev FieldMap := List (JsonVal × FieldObj)

/-- Python field.get(k, default) on a field descriptor. -/
def objGetD (f : FieldObj) (k : String) (d : JsonVal) : JsonVal :=
  (f.lookup k).getD d

mutual

/-- Models Python str() for the values that can appear as a legacy field
descriptor: None, booleans, numbers, strings, and the container reprs
(inside a container, strings print with quotes as repr does). -/
def pyStr : JsonVal → String
  | .jnull => "None"
  | .jbool true => "True"
  | .jbool false => "False"
  | .jint n => toString n
  | .jstr s => s
  | .jarr xs => "[" ++ pyReprJoin xs ++ "]"
  | .jobj kvs => "\x7b" ++ pyReprEntriesJoin kvs ++ "\x7d"

/-- Comma-joined reprs of list items. -/
def pyReprJoin : List JsonVal → String
  | [] => ""
  | [.jstr s] => "\x27" ++ s ++ "\x27"
  | [v] => pyStr v
  | .jstr s :: y :: rest => "\x27" ++ s ++ "\x27, " ++ pyReprJoin (y :: rest)
  | v :: y :: rest => pyStr v ++ ", " ++ pyReprJoin (y :: rest)

/-- Comma-joined reprs of dict entries. -/
def pyReprEntriesJoin : List (String × JsonVal) → String
  | [] => ""
  | [(k, .jstr s)] => "\x27" ++ k ++ "\x27: \x27" ++ s ++ "\x27"
  | [(k, v)] => "\x27" ++ k ++ "\x27: " ++ pyStr v
  | (k, .jstr s) :: q :: rest =>
      "\x27" ++ k ++ "\x27: \x27" ++ s ++ "\x27, " ++
        pyReprEntriesJoin (q :: rest)
  | (k, v) :: q :: rest =>
      "\x27" ++ k ++ "\x27: " ++ pyStr v ++ ", " ++
        pyReprEntriesJoin (q :: rest)

end

/-- Python dict assignment fields[k] = v on the accumulated field map: an
unhashable key raises TypeError; an existing key (Python equality) keeps its
position and first-stored key object but takes the new value; a new key is
appended. -/
def fieldsInsert (k : JsonVal) (v : FieldObj) (m : FieldMap) :
    Except String FieldMap :=
  if pyHashable k then
    .ok (if m.any (fun p => pyEq p.1 k) then
           m.map (fun p => if pyEq p.1 k then (p.1, v) else p)
         else m ++ [(k, v)])
  else .error "TypeError: unhashable type"

/-- Key the canonical-list branch assigns to a field descriptor:
field.get("name") or field.get("path") or "unknown" (Python or takes the
first truthy operand; a missing key contributes None). -/
def resolveListName (kvs : FieldObj) : JsonVal :=
  pyOr (objGetD kvs "name" .jnull)
    (pyOr (objGetD kvs "path" .jnull) (.jstr "unknown"))

/-- Key the raw_schema fallback branch assigns: field.get("name") or
"unknown" (no path fallback in that branch). -/
def resolveRawName (kvs : FieldObj) : JsonVal :=
  pyOr (objGetD kvs "name" .jnull) (.jstr "unknown")

/-- Loop of the canonical-list branch: each dict element is stored under its
resolved name; non-dict elements are skipped. -/
def extractFromList : List JsonVal → FieldMap → Except String FieldMap
  | [], m => .ok m
  | f :: rest, m =>
      match f with
      | .jobj kvs =>
          match fieldsInsert (resolveListName kvs) kvs m with
          | .ok m2 => extractFromList rest m2
          | .error e => .error e
      | _ => extractFromList rest m

/-- Loop of the raw_schema fallback branch: like the list branch but the
key is field.get("name") or "unknown". -/
def extractFromListRaw : List JsonVal → FieldMap → Except String FieldMap
  | [], m => .ok m
  | f :: rest, m =>
      match f with
      | .jobj kvs =>
          match fieldsInsert (resolveRawName kvs) kvs m with
          | .ok m2 => extractFromListRaw rest m2
          | .error e => .error e
      | _ => extractFromListRaw rest m

/-- Python dict merge for the legacy branch, the expression
with meta fields first and "name" set to field_name: an existing "name"
entry keeps its position with the new value, otherwise "name" is appended. -/
def objSetName (meta : FieldObj) (nm : String) : FieldObj :=
  if meta.any (fun p => p.1 == "name") then
    meta.map (fun p => if p.1 == "name" then (p.1, JsonVal.jstr nm) else p)
  else meta ++ [("name", JsonVal.jstr nm)]

/-- Loop of the legacy dict branch: a dict-valued entry is stored merged
with its name; any other value is stored as a fresh descriptor with the
stringified value as its type. -/
def extractFromDict : List (String × JsonVal) → FieldMap →
    Except String FieldMap
  | [], m => .ok m
  | (k, meta) :: rest, m =>
      let fobj : FieldObj :=
        match meta with
        | .jobj mkvs => objSetName mkvs k
        | other => [("name", JsonVal.jstr k), ("type", JsonVal.jstr (pyStr other))]
      match fieldsInsert (.jstr k) fobj m with
      | .ok m2 => extractFromDict rest m2
      | .error e => .error e

/-- The final fallback of _extract_fields_from_schema: when no fields were
found, a dict raw_schema entry carrying a list of fields is extracted with
name-or-unknown keys; anything else yields no fields. -/
def rawFallback (schema_obj : List (String × JsonVal)) :
    Except String FieldMap :=
  match schema_obj.lookup "raw_schema" with
  | some (.jobj raw) =>
      match raw.lookup "fields" with
      | some (.jarr fs) => extractFromListRaw fs []
      | _ => .ok []
  | _ => .ok []

/-- The first pass of _extract_fields_from_schema over the "fields" entry:
a list is handled by the canonical branch, a dict by the legacy branch (the
third elif of the source repeats the first condition and is dead code). -/
def fieldsPass (schema_obj : List (String × JsonVal)) :
    Except String FieldMap :=
  match schema_obj.lookup "fields" with
  | some (.jarr fs) => extractFromList fs []
  | some (.jobj kvs) => extractFromDict kvs []
  | _ => .ok []

/-- Embeds _extract_fields_from_schema from schema_diff_service.py: an empty
(falsy) schema yields no fields; the "fields" entry is extracted by
fieldsPass; if that left the map empty, rawFallback is consulted. -/
def extract_fields_from_schema (schema_obj : List (String × JsonVal)) :
    Except String FieldMap :=
  if schema_obj.isEmpty then .ok []
  else
    match fieldsPass schema_obj with
    | .error e => .error e
    | .ok m => if m.isEmpty then rawFallback schema_obj else .ok m

/-- The old and new type and nullable pair reported for a changed field. -/
structure TypeNullable where
  type : JsonVal
  nullable : JsonVal

/-- One entry of the changed list, mirroring the keys of the dict the source
appends: name, field (frontend duplicate of name), old, new, old_type,
new_type. -/
structure ChangedEntry where
  name : JsonVal
  field : JsonVal
  old : TypeNullable
  new : TypeNullable
  old_type : JsonVal
  new_type : JsonVal

/-- The dict compare_schemas returns. -/
structure SchemaDiffResult where
  added : List FieldObj
  removed : List FieldObj
  changed : List ChangedEntry
  added_fields : List JsonVal
  removed_fields : List JsonVal
  old_count : Nat
  new_count : Nat

/-- Membership of a key in a list of names, by Python equality. -/
def memKeyP (k : JsonVal) (names : List JsonVal) : Bool :=
  names.any (fun n => pyEq n k)

/-- Python dict access m[k] by Python key equality (first match). -/
def lookupP (k : JsonVal) (m : FieldMap) : Option FieldObj :=
  match m.find? (fun p => pyEq p.1 k) with
  | some p => some p.2
  | none => none

/-- Pairs of new_fields whose name is absent from old_fields (the added
set, kept in new-side insertion order since Python set iteration order is
unspecified). -/
def addedPairs (old_fields new_fields : FieldMap) : FieldMap :=
  new_fields.filter (fun p => !(memKeyP p.1 (old_fields.map Prod.fst)))

/-- Pairs of old_fields whose name is absent from new_fields. -/
def removedPairs (old_fields new_fields : FieldMap) : FieldMap :=
  old_fields.filter (fun p => !(memKeyP p.1 (new_fields.map Prod.fst)))

/-- The changed entries: for each name in both sides (old-side insertion
order stands in for Python set iteration order), compare type and nullable
with defaults "string" and True; a differing field is reported with its old
and new pairs. -/
def changedEntries (old_fields new_fields : FieldMap) : List ChangedEntry :=
  (old_fields.filter (fun p => memKeyP p.1 (new_fields.map Prod.fst))).filterMap
    (fun p =>
      match lookupP p.1 new_fields with
      | none => none
      | some nf =>
          let ot := objGetD p.2 "type" (.jstr "string")
          let nt := objGetD nf "type" (.jstr "string")
          let onl := objGetD p.2 "nullable" (.jbool true)
          let nnl := objGetD nf "nullable" (.jbool true)
          if !(pyEq ot nt) || !(pyEq onl nnl) then
            some ⟨p.1, p.1, ⟨ot, onl⟩, ⟨nt, nnl⟩, ot, nt⟩
          else none)

/-- Display name for the added_fields / removed_fields convenience lists:
f.get("name") or f.get("path", "unknown"). -/
def fieldDisplayName (f : FieldObj) : JsonVal :=
  pyOr (objGetD f "name" .jnull) (objGetD f "path" (.jstr "unknown"))

/-- Assembles the result dict of compare_schemas from the two extracted
field maps. -/
def diffCore (old_fields new_fields : FieldMap) : SchemaDiffResult :=
  { added := (addedPairs old_fields new_fields).map Prod.snd
    removed := (removedPairs old_fields new_fields).map Prod.snd
    changed := changedEntries old_fields new_fields
    added_fields :=
      ((addedPairs old_fields new_fields).map Prod.snd).map fieldDisplayName
    removed_fields :=
      ((removedPairs old_fields new_fields).map Prod.snd).map fieldDisplayName
    old_count := old_fields.length
    new_count := new_fields.length }

/-- Field extraction for the old side of compare_schemas: a falsy (absent
or empty) old schema contributes an empty map without being extracted. -/
def oldSideFields (old_schema : Option (List (String × JsonVal))) :
    Except String FieldMap :=
  match old_schema with
  | none => .ok []
  | some o => if o.isEmpty then .ok [] else extract_fields_from_schema o

/-- Field extraction for the new side: same falsiness guard as the source. -/
def newSideFields (new_schema : List (String × JsonVal)) :
    Except String FieldMap :=
  if new_schema.isEmpty then .ok [] else extract_fields_from_schema new_schema

/-- Embeds compare_schemas from schema_diff_service.py: extract both sides
(the falsy guard replaces extraction by an empty map) and assemble the
added/removed/changed result with the convenience name lists and the field
counts. -/
def compare_schemas (old_schema : Option (List (String × JsonVal)))
    (new_schema : List (String × JsonVal)) : Except String SchemaDiffResult :=
  match oldSideFields old_schema, newSideFields new_schema with
  | .error e, _ => .error e
  | .ok _, .error e => .error e
  | .ok old_fields, .ok new_fields => .ok (diffCore old_fields new_fields)

/-! Small test predicates and concrete example data used by the witnesses. -/

/-- True exactly for string values. -/
def isJStr : JsonVal → Bool
  | .jstr _ => true
  | _ => false

/-- True exactly for object (mapping) values. -/
def isJObj : JsonVal → Bool
  | .jobj _ => true
  | _ => false

/-- True exactly for array (sequence) values. -/
def isJArr : JsonVal → Bool
  | .jarr _ => true
  | _ => false

/-- A concrete schema dict in the canonical list shape. -/
def schemaEx : List (String × JsonVal) :=
  [("source_id", .jstr "s1"),
   ("fields", .jarr
      [.jobj [("name", .jstr "a"), ("type", .jstr "integer"),
              ("nullable", .jbool false)],
       .jobj [("name", .jstr "b"), ("type", .jstr "string"),
              ("nullable", .jbool true)]])]

/-- A second concrete schema where field a has drifted to type string. -/
def schemaEx2 : List (String × JsonVal) :=
  [("source_id", .jstr "s1"),
   ("fields", .jarr
      [.jobj [("name", .jstr "a"), ("type", .jstr "string"),
              ("nullable", .jbool false)],
       .jobj [("name", .jstr "b"), ("type", .jstr "string"),
              ("nullable", .jbool true)]])]

/-- A schema whose two list-form field descriptors carry neither a name nor
a path key. -/
def schemaAnon : List (String × JsonVal) :=
  [("fields", .jarr [.jobj [("type", .jstr "integer")],
                     .jobj [("type", .jstr "string")]])]

/-- An old-side schema with no recognizable field shape. -/
def schemaJunk : List (String × JsonVal) :=
  [("foo", .jint 1), ("fields", .jstr "oops")]

/-- A one-field schema: a of type integer, not nullable. -/
def schemaOne : List (String × JsonVal) :=
  [("fields", .jarr [.jobj [("name", .jstr "a"), ("type", .jstr "integer"),
                            ("nullable", .jbool false)]])]

/-- The same field with its type drifted to string. -/
def schemaOneStr : List (String × JsonVal) :=
  [("fields", .jarr [.jobj [("name", .jstr "a"), ("type", .jstr "string"),
                            ("nullable", .jbool false)]])]

/-- The field map extracted from schemaOne. -/
def mOne : FieldMap :=
  [(.jstr "a", [("name", .jstr "a"), ("type", .jstr "integer"),
                ("nullable", .jbool false)])]

/-- The field map extracted from schemaOneStr. -/
def mOneStr : FieldMap :=
  [(.jstr "a", [("name", .jstr "a"), ("type", .jstr "string"),
                ("nullable", .jbool false)])]

/-- The names the canonical-list branch resolves for the dict elements of a
fields list, in order (non-dict elements are skipped by the source loop). -/
def resolvedListNames (fs : List JsonVal) : List JsonVal :=
  fs.filterMap (fun f => match f with
    | .jobj kvs => some (resolveListName kvs)
    | _ => none)

/-- First-occurrence deduplication by Python equality: the distinct keys a
sequence of dict assignments leaves behind. -/
def pyDedup (ks : List JsonVal) : List JsonVal :=
  ks.foldl (fun acc k => if acc.any (fun n => pyEq n k) then acc
                         else acc ++ [k]) []

/-- The keys of a field map are pairwise distinct under Python equality
(the invariant Python dicts maintain). -/
def KDistinct (m : FieldMap) : Prop :=
  List.Pairwise (fun a b => pyEq a.1 b.1 = false) m

end Dataverse

/-! Theorems.  Helper lemmas come first, then one theorem per claim with its
witness or counterexample. -/

namespace Dataverse

mutual

/-- The sanitizer output never contains a numpy wrapper. -/
theorem numpyFree_sanitize : ∀ v, numpyFree (sanitize_for_mongo v) = true
  | .npInt _ => rfl
  | .npFloat _ => rfl
  | .npBool _ => rfl
  | .npArray items => numpyFree_sanitizeList items
  | .pFloat x => by cases x <;> rfl
  | .pDict entries => numpyFree_sanitizeEntries entries
  | .pList items => numpyFree_sanitizeList items
  | .pTuple items => numpyFree_sanitizeList items
  | .pNone => rfl
  | .pBool _ => rfl
  | .pInt _ => rfl
  | .pStr _ => rfl
  | .pOther _ => rfl

/-- Elementwise form of numpyFree_sanitize. -/
theorem numpyFree_sanitizeList :
    ∀ xs, numpyFreeList (sanitizeList xs) = true
  | [] => rfl
  | v :: rest => by
      have h1 := numpyFree_sanitize v
      have h2 := numpyFree_sanitizeList rest
      simp [sanitizeList, numpyFreeList, h1, h2]

/-- Entrywise form of numpyFree_sanitize. -/
theorem numpyFree_sanitizeEntries :
    ∀ es, numpyFreeEntries (sanitizeEntries es) = true
  | [] => rfl
  | p :: rest => by
      have h1 := numpyFree_sanitize p.2
      have h2 := numpyFree_sanitizeEntries rest
      simp [sanitizeEntries, numpyFreeEntries, h1, h2]

end

/-- sanitizeList is the elementwise map of the sanitizer. -/
theorem sanitizeList_eq_map : ∀ xs, sanitizeList xs = xs.map sanitize_for_mongo
  | [] => rfl
  | v :: rest => by simp [sanitizeList, sanitizeList_eq_map rest]

/-- sanitizeEntries is the valuewise map of the sanitizer. -/
theorem sanitizeEntries_eq_map :
    ∀ es, sanitizeEntries es = es.map (fun p => (p.1, sanitize_for_mongo p.2))
  | [] => rfl
  | p :: rest => by simp [sanitizeEntries, sanitizeEntries_eq_map rest]

/-- C3: sanitize_for_mongo converts every numpy wrapper scalar into a native
int/float/bool, converts every numpy array into a list, converts the
distinguished not-a-number sentinel (the np.nan singleton, the only value
the identity test of the source matches) into None, recurses through nested
dicts and lists/tuples, and returns any other leaf unchanged; consequently
its output is numpy-free at every depth. -/
theorem C3_sanitize_spec :
    (∀ v, numpyFree (sanitize_for_mongo v) = true) ∧
    (∀ n, sanitize_for_mongo (.npInt n) = .pInt n) ∧
    (∀ q, sanitize_for_mongo (.npFloat (.finite q)) = .pFloat (.finite q)) ∧
    (∀ b, sanitize_for_mongo (.npBool b) = .pBool b) ∧
    (∀ xs, sanitize_for_mongo (.npArray xs) = .pList (xs.map sanitize_for_mongo)) ∧
    (sanitize_for_mongo (.pFloat .nanNp) = .pNone) ∧
    (∀ es, sanitize_for_mongo (.pDict es) =
      .pDict (es.map (fun p => (p.1, sanitize_for_mongo p.2)))) ∧
    (∀ xs, sanitize_for_mongo (.pList xs) = .pList (xs.map sanitize_for_mongo)) ∧
    (∀ xs, sanitize_for_mongo (.pTuple xs) = .pList (xs.map sanitize_for_mongo)) ∧
    (∀ v, isPlainLeaf v = true → v ≠ .pFloat .nanNp → sanitize_for_mongo v = v) := by
  refine ⟨numpyFree_sanitize, fun _ => rfl, fun _ => rfl, fun _ => rfl,
    fun xs => by simp [sanitize_for_mongo, sanitizeList_eq_map],
    rfl,
    fun es => by simp [sanitize_for_mongo, sanitizeEntries_eq_map],
    fun xs => by simp [sanitize_for_mongo, sanitizeList_eq_map],
    fun xs => by simp [sanitize_for_mongo, sanitizeList_eq_map],
    ?_⟩
  intro v hleaf hne
  cases v with
  | pFloat x => cases x with
    | nanNp => exact absurd rfl hne
    | finite q => rfl
    | nanOther => rfl
  | pNone => rfl
  | pBool _ => rfl
  | pInt _ => rfl
  | pStr _ => rfl
  | pOther _ => rfl
  | npInt _ => exact absurd hleaf (by simp [isPlainLeaf])
  | npFloat _ => exact absurd hleaf (by simp [isPlainLeaf])
  | npBool _ => exact absurd hleaf (by simp [isPlainLeaf])
  | npArray _ => exact absurd hleaf (by simp [isPlainLeaf])
  | pDict _ => exact absurd hleaf (by simp [isPlainLeaf])
  | pList _ => exact absurd hleaf (by simp [isPlainLeaf])
  | pTuple _ => exact absurd hleaf (by simp [isPlainLeaf])

/-- Witness for C3 at concrete inputs: a plain string leaf passes through,
and a numpy array holding a numpy int sanitizes to a native list of ints. -/
theorem C3_sanitize_spec_witness :
    isPlainLeaf (.pStr "x") = true ∧
    sanitize_for_mongo (.pStr "x") = .pStr "x" ∧
    sanitize_for_mongo (.npArray [.npInt 3]) = .pList [.pInt 3] := by
  refine ⟨rfl, C3_sanitize_spec.2.2.2.2.2.2.2.2.2 (.pStr "x") rfl ?_, ?_⟩
  · intro h; cases h
  · have h := C3_sanitize_spec.2.2.2.2.1 [PyVal.npInt 3]
    simpa using h

/-- C4 (code bug): on the mapping input with one empty sequence field and
one scalar field the padded columns end up with lengths 0 and 1, so the
pd.DataFrame call inside safe_json_to_df raises ValueError instead of
returning a row set; on the documented example the function behaves exactly
as the claim states (rows [a1 b const, a2 null, a3 null]). -/
theorem C4_dict_padding_eval :
    safe_json_to_df (.jobj [("a", .jarr []), ("b", .jstr "const")]) =
      .error "ValueError: All arrays must be of the same length" ∧
    safe_json_to_df
        (.jobj [("a", .jarr [.jint 1, .jint 2, .jint 3]),
                ("b", .jstr "const")]) =
      .ok ⟨["a", "b"],
           [[.jint 1, .jstr "const"],
            [.jint 2, .jnull],
            [.jint 3, .jnull]]⟩ := by
  exact ⟨rfl, rfl⟩

/-- C5 counterexample: a non-mapping element that is itself a sequence is
wrapped raw as the value cell, not serialized to its canonical string
encoding — the stored leaf is still a list, not a string, refuting the
claim that every mapping-or-sequence leaf is serialized. -/
theorem C5_counterexample :
    safe_json_to_df (.jarr [.jarr [.jint 1, .jint 2]]) =
      .ok ⟨["value"], [[.jarr [.jint 1, .jint 2]]]⟩ ∧
    jsonDumps (.jarr [.jint 1, .jint 2]) = "[1, 2]" ∧
    isJStr (.jarr [.jint 1, .jint 2]) = false := by
  exact ⟨rfl, rfl, rfl⟩

/-- C5 amended: for every sequence input, each mapping element becomes one
row whose dict- or list-valued entries are serialized with json.dumps; each
non-mapping element becomes the row with single key value holding the
element as-is — in particular a non-mapping element that is itself a
sequence is stored raw, not serialized. -/
theorem C5_amended :
    (∀ items, safe_json_to_df (.jarr items) =
      .ok (pd_DataFrame_ofRecords (items.map normalizeElement))) ∧
    (∀ kvs, normalizeElement (.jobj kvs) =
      kvs.map (fun p => (p.1, serializeLeaf p.2))) ∧
    (∀ v, isJObj v = false → normalizeElement v = [("value", v)]) ∧
    (∀ xs, serializeLeaf (.jarr xs) = .jstr (jsonDumps (.jarr xs))) ∧
    (∀ es, serializeLeaf (.jobj es) = .jstr (jsonDumps (.jobj es))) ∧
    (∀ v, isJObj v = false → isJArr v = false → serializeLeaf v = v) := by
  refine ⟨fun _ => rfl, fun _ => rfl, ?_, fun _ => rfl, fun _ => rfl, ?_⟩
  · intro v hv
    cases v <;> simp_all [isJObj, normalizeElement]
  · intro v hobj harr
    cases v <;> simp_all [isJObj, isJArr, serializeLeaf]

/-- Witness for C5 amended at concrete inputs: a primitive element is
wrapped under the value key, and a dict element with a nested list leaf is
serialized. -/
theorem C5_amended_witness :
    isJObj (.jint 5) = false ∧
    normalizeElement (.jint 5) = [("value", .jint 5)] ∧
    serializeLeaf (.jarr [.jint 1]) = .jstr "[1]" := by
  refine ⟨rfl, C5_amended.2.2.1 (.jint 5) rfl, ?_⟩
  have h := C5_amended.2.2.2.1 [JsonVal.jint 1]
  simpa using h

/-- C1 counterexample: with a persistence failure from the evolution
tracker and the unversioned candidate schema from the generator, the outcome
run_dynamic_etl_bytes returns is byte-identical to the outcome of a
successful run (no failure indication reaches the caller) and its
schema_version is the silently defaulted version 1. -/
theorem C1_counterexample :
    run_dynamic_etl_tail "s1" exCandidate (.error "storage unavailable")
        exRecords exStats ["frag"] =
      run_dynamic_etl_tail "s1" exCandidate (.ok exCandidate)
        exRecords exStats ["frag"] ∧
    (run_dynamic_etl_tail "s1" exCandidate (.error "storage unavailable")
        exRecords exStats ["frag"]).schema_version = .pInt 1 := by
  exact ⟨rfl, rfl⟩

/-- C1 amended: when schema evolution tracking fails, run_dynamic_etl_bytes
logs a warning and continues with the untracked candidate; the returned
dict carries no failure indication (it equals that of a successful run
whose tracker returned the candidate unchanged), and schema_version falls
back to schema.get("version", 1), so an unversioned candidate is reported
to the caller as version 1. -/
theorem C1_amended : ∀ (sid : String) (candidate : SchemaDict) (e : String)
    (records : List (List (String × PyVal)))
    (stats : List (String × PyVal)) (frags : List String),
    candidate.lookup "version" = none →
    run_dynamic_etl_tail sid candidate (.error e) records stats frags =
      run_dynamic_etl_tail sid candidate (.ok candidate) records stats frags ∧
    (run_dynamic_etl_tail sid candidate (.error e)
        records stats frags).schema_version = .pInt 1 := by
  intro sid candidate e records stats frags h
  refine ⟨rfl, ?_⟩
  simp [run_dynamic_etl_tail, pyDictGet, h]

/-- Witness for C1 amended at the concrete candidate. -/
theorem C1_amended_witness :
    exCandidate.lookup "version" = none ∧
    (run_dynamic_etl_tail "s2" exCandidate (.error "disk full")
        exRecords exStats []).schema_version = .pInt 1 := by
  exact ⟨rfl, (C1_amended "s2" exCandidate "disk full" exRecords exStats []
    rfl).2⟩

/-- C2 counterexample: the csv entry of READERS is the raw pd.read_csv; on
a missing file it raises FileNotFoundError instead of returning an empty
row set, refuting the claim that every registry entry fails silently to
empty. -/
theorem C2_counterexample :
    (READERS stubReader stubReader).lookup "csv" = some pd_read_csv ∧
    pd_read_csv emptyFS "data.csv" = .error "FileNotFoundError" ∧
    readerOk (pd_read_csv emptyFS "data.csv") = false := by
  exact ⟨rfl, rfl, rfl⟩

/-- C2 amended: the json, html and xml entries of READERS catch every
exception and return a row set (possibly empty) for every file system and
path; the entries bound directly to pandas readers (csv, tsv, xlsx, xls,
parquet) propagate exceptions, raising FileNotFoundError on a missing
path. -/
theorem C2_amended :
    (∀ smart pdfc : Reader,
      (READERS smart pdfc).lookup "json" = some read_json ∧
      (READERS smart pdfc).lookup "csv" = some pd_read_csv ∧
      (READERS smart pdfc).lookup "html" = some read_html_safely ∧
      (READERS smart pdfc).lookup "xml" = some read_xml_safely ∧
      (READERS smart pdfc).lookup "xlsx" = some pd_read_excel_openpyxl ∧
      (READERS smart pdfc).lookup "xls" = some pd_read_excel_xlrd ∧
      (READERS smart pdfc).lookup "tsv" = some pd_read_csv_tab ∧
      (READERS smart pdfc).lookup "parquet" = some pd_read_parquet) ∧
    (∀ (fs : FileSystem) (path : String),
      readerOk (read_json fs path) = true ∧
      readerOk (read_html_safely fs path) = true ∧
      readerOk (read_xml_safely fs path) = true) ∧
    (∀ (fs : FileSystem) (path : String), fs path = none →
      pd_read_csv fs path = .error "FileNotFoundError" ∧
      pd_read_csv_tab fs path = .error "FileNotFoundError" ∧
      pd_read_excel_openpyxl fs path = .error "FileNotFoundError" ∧
      pd_read_excel_xlrd fs path = .error "FileNotFoundError" ∧
      pd_read_parquet fs path = .error "FileNotFoundError") := by
  refine ⟨fun smart pdfc => ⟨rfl, rfl, rfl, rfl, rfl, rfl, rfl, rfl⟩, ?_, ?_⟩
  · intro fs path
    refine ⟨?_, ?_, ?_⟩
    · cases hf : fs path with
      | none => simp [read_json, hf, readerOk]
      | some f =>
          cases hj : f.jsonData with
          | none => simp [read_json, hf, hj, readerOk]
          | some d =>
              cases hs : safe_json_to_df d <;>
                simp [read_json, hf, hj, hs, readerOk]
    · cases hf : fs path with
      | none => simp [read_html_safely, hf, readerOk]
      | some f =>
          cases h1 : f.htmlLxml with
          | some l =>
              cases l with
              | nil =>
                  cases h2 : f.htmlHtml5lib with
                  | some l2 =>
                      cases l2 with
                      | nil =>
                          cases h3 : f.htmlDefault with
                          | some l3 =>
                              cases l3 <;>
                                simp [read_html_safely, hf, h1, h2, h3,
                                  readerOk]
                          | none =>
                              simp [read_html_safely, hf, h1, h2, h3,
                                readerOk]
                      | cons t ts =>
                          simp [read_html_safely, hf, h1, h2, readerOk]
                  | none =>
                      cases h3 : f.htmlDefault with
                      | some l3 =>
                          cases l3 <;>
                            simp [read_html_safely, hf, h1, h2, h3, readerOk]
                      | none =>
                          simp [read_html_safely, hf, h1, h2, h3, readerOk]
              | cons t ts => simp [read_html_safely, hf, h1, readerOk]
          | none =>
              cases h2 : f.htmlHtml5lib with
              | some l2 =>
                  cases l2 with
                  | nil =>
                      cases h3 : f.htmlDefault with
                      | some l3 =>
                          cases l3 <;>
                            simp [read_html_safely, hf, h1, h2, h3, readerOk]
                      | none =>
                          simp [read_html_safely, hf, h1, h2, h3, readerOk]
                  | cons t ts =>
                      simp [read_html_safely, hf, h1, h2, readerOk]
              | none =>
                  cases h3 : f.htmlDefault with
                  | some l3 =>
                      cases l3 <;>
                        simp [read_html_safely, hf, h1, h2, h3, readerOk]
                  | none =>
                      simp [read_html_safely, hf, h1, h2, h3, readerOk]
    · cases hf : fs path with
      | none => simp [read_xml_safely, hf, readerOk]
      | some f =>
          cases hx : f.xmlTable <;> simp [read_xml_safely, hf, hx, readerOk]
  · intro fs path h
    refine ⟨?_, ?_, ?_, ?_, ?_⟩ <;>
      simp [pd_read_csv, pd_read_csv_tab, pd_read_excel_openpyxl,
        pd_read_excel_xlrd, pd_read_parquet, h]

/-- Witness for C2 amended on the empty file system. -/
theorem C2_amended_witness :
    emptyFS "a.csv" = none ∧
    readerOk (read_json emptyFS "a.csv") = true ∧
    pd_read_csv emptyFS "a.csv" = .error "FileNotFoundError" := by
  exact ⟨rfl, (C2_amended.2.1 emptyFS "a.csv").1,
    (C2_amended.2.2 emptyFS "a.csv" rfl).1⟩

/-- C6: whenever safe_json_to_df returns a row set, every row has one cell
per column (so all rows share the same field-name list), and in the
list-of-records case the cell of row i at column c is the looked-up value
of the normalized element, with null filled in when the element has no such
field. -/
theorem ofRecords_row_len : ∀ (recs : List (List (String × JsonVal)))
    (row : List JsonVal), row ∈ (pd_DataFrame_ofRecords recs).rows →
    row.length = (pd_DataFrame_ofRecords recs).cols.length := by
  intro recs row hrow
  simp only [pd_DataFrame_ofRecords] at hrow ⊢
  rcases List.mem_map.mp hrow with ⟨r, _, rfl⟩
  simp

theorem ofColumns_row_len : ∀ (cs : List (String × List JsonVal))
    (df : DataFrame), pd_DataFrame_ofColumns cs = .ok df →
    ∀ row ∈ df.rows, row.length = df.cols.length := by
  intro cs df h
  cases cs with
  | nil =>
      simp only [pd_DataFrame_ofColumns, Except.ok.injEq] at h
      subst h
      intro row hrow
      simp at hrow
  | cons p rest =>
      obtain ⟨k, v⟩ := p
      cases hall : (rest.all fun p => p.2.length == v.length) with
      | false =>
          simp [pd_DataFrame_ofColumns, hall] at h
      | true =>
          simp only [pd_DataFrame_ofColumns, hall, if_true, Except.ok.injEq]
            at h
          subst h
          intro row hrow
          simp only [List.mem_map] at hrow
          rcases hrow with ⟨i, _, rfl⟩
          simp

/-- C6: whenever safe_json_to_df returns a row set, every row has one cell
per column (so all rows share the same field-name list), and in the
list-of-records case the cell of row i at column c is the looked-up value
of the normalized element, with null filled in when the element has no such
field. -/
theorem C6_uniform_rows : ∀ (x : JsonVal) (df : DataFrame),
    safe_json_to_df x = .ok df →
    ((∀ row ∈ df.rows, row.length = df.cols.length) ∧
     (∀ row ∈ df.rows, (df.cols.zip row).map Prod.fst = df.cols) ∧
     (∀ items, x = .jarr items →
       ∀ (i : Nat) (item : JsonVal), items[i]? = some item →
         df.rows[i]? = some (df.cols.map (fun c =>
           ((normalizeElement item).lookup c).getD .jnull)))) := by
  intro x df h
  have hlen : ∀ row ∈ df.rows, row.length = df.cols.length := by
    cases x with
    | jarr items =>
        have h2 : pd_DataFrame_ofRecords (items.map normalizeElement) = df :=
          Except.ok.inj h
        subst h2
        exact ofRecords_row_len _
    | jobj kvs => exact ofColumns_row_len _ df h
    | jnull =>
        have h2 : DataFrame.mk ["0"] [[JsonVal.jnull]] = df := Except.ok.inj h
        subst h2
        intro row hrow
        simp at hrow
        subst hrow
        rfl
    | jbool b =>
        have h2 : DataFrame.mk ["0"] [[JsonVal.jbool b]] = df :=
          Except.ok.inj h
        subst h2
        intro row hrow
        simp at hrow
        subst hrow
        rfl
    | jint n =>
        have h2 : DataFrame.mk ["0"] [[JsonVal.jint n]] = df := Except.ok.inj h
        subst h2
        intro row hrow
        simp at hrow
        subst hrow
        rfl
    | jstr s =>
        have h2 : DataFrame.mk ["0"] [[JsonVal.jstr s]] = df := Except.ok.inj h
        subst h2
        intro row hrow
        simp at hrow
        subst hrow
        rfl
  refine ⟨hlen, ?_, ?_⟩
  · intro row hrow
    exact List.map_fst_zip df.cols row (le_of_eq (hlen row hrow).symm)
  · intro items hx i item hi
    subst hx
    have h2 : pd_DataFrame_ofRecords (items.map normalizeElement) = df :=
      Except.ok.inj h
    subst h2
    simp [pd_DataFrame_ofRecords, hi]

/-- Witness for C6 on a concrete two-record input with differing key sets. -/
theorem C6_uniform_rows_witness :
    safe_json_to_df (.jarr [.jobj [("a", .jint 1)], .jobj [("b", .jint 2)]]) =
      .ok ⟨["a", "b"], [[.jint 1, .jnull], [.jnull, .jint 2]]⟩ ∧
    (∀ row ∈ (DataFrame.mk ["a", "b"]
        [[.jint 1, .jnull], [.jnull, .jint 2]]).rows,
      row.length = 2) := by
  constructor
  · rfl
  · intro row hrow
    have h := (C6_uniform_rows
      (.jarr [.jobj [("a", .jint 1)], .jobj [("b", .jint 2)]])
      ⟨["a", "b"], [[.jint 1, .jnull], [.jnull, .jint 2]]⟩ rfl).1 row hrow
    simpa using h

/-- Pointwise self-equality lifts to pyEqList. -/
theorem pyEqList_self_of : ∀ xs : List JsonVal,
    (∀ x ∈ xs, pyEq x x = true) → pyEqList xs xs = true := by
  intro xs h
  induction xs with
  | nil => simp [pyEqList]
  | cons x rest ih =>
      have hx := h x (by simp)
      have hr := ih (fun y hy => h y (by simp [hy]))
      simp [pyEqList, hx, hr]

/-- A stored entry with a self-equal value is found by pyObjFind. -/
theorem pyObjFind_self_of : ∀ (k : String) (v : JsonVal)
    (b : List (String × JsonVal)), (k, v) ∈ b → pyEq v v = true →
    pyObjFind k v b = true := by
  intro k v b hmem hv
  induction b with
  | nil => simp at hmem
  | cons q rest ih =>
      rcases List.mem_cons.mp hmem with h | h
      · obtain ⟨k2, v2⟩ := q
        obtain ⟨h1, h2⟩ := Prod.mk.injEq .. ▸ h
        subst h1; subst h2
        simp [pyObjFind, hv]
      · obtain ⟨k2, v2⟩ := q
        simp [pyObjFind, ih h]

/-- Entrywise self-membership lifts to pyObjSub. -/
theorem pyObjSub_self_of : ∀ (l b : List (String × JsonVal)),
    (∀ p ∈ l, (p.1, p.2) ∈ b ∧ pyEq p.2 p.2 = true) → pyObjSub l b = true := by
  intro l b h
  induction l with
  | nil => simp [pyObjSub]
  | cons p rest ih =>
      obtain ⟨k, v⟩ := p
      have hp := h (k, v) (by simp)
      have hr := ih (fun q hq => h q (by simp [hq]))
      simp [pyObjSub, pyObjFind_self_of k v b hp.1 hp.2, hr]

/-- Python equality is reflexive on the JSON universe. -/
theorem pyEq_refl : ∀ v : JsonVal, pyEq v v = true := by
  suffices hn : ∀ (n : Nat) (v : JsonVal), sizeOf v ≤ n → pyEq v v = true from
    fun v => hn (sizeOf v) v le_rfl
  intro n
  induction n with
  | zero =>
      intro v hv
      exfalso
      cases v <;> simp at hv
  | succ n ih =>
      intro v hv
      cases v with
      | jnull => simp [pyEq]
      | jbool b => simp [pyEq]
      | jint m => simp [pyEq]
      | jstr s => simp [pyEq]
      | jarr xs =>
          have hsz : sizeOf xs ≤ n := by simp at hv; omega
          have : pyEqList xs xs = true := by
            apply pyEqList_self_of
            intro x hx
            have hlt := List.sizeOf_lt_of_mem hx
            exact ih x (by omega)
          simp [pyEq, this]
      | jobj a =>
          have hsz : sizeOf a ≤ n := by simp at hv; omega
          have hsub : pyObjSub a a = true := by
            apply pyObjSub_self_of
            intro p hp
            refine ⟨by simpa using hp, ?_⟩
            obtain ⟨k, w⟩ := p
            have hlt := List.sizeOf_lt_of_mem hp
            simp at hlt
            exact ih w (by omega)
          simp [pyEq, hsub]

/-- Replacing the value stored under a key leaves the key list unchanged. -/
theorem map_fst_replace : ∀ (k : JsonVal) (v : FieldObj) (m : FieldMap),
    (m.map (fun p => if pyEq p.1 k then (p.1, v) else p)).map Prod.fst =
      m.map Prod.fst := by
  intro k v m
  induction m with
  | nil => rfl
  | cons p rest ih => cases hp : pyEq p.1 k <;> simp [hp, ih]

/-- Effect of a Python dict assignment on the key list. -/
theorem fieldsInsert_keys : ∀ (k : JsonVal) (v : FieldObj) (m m2 : FieldMap),
    fieldsInsert k v m = .ok m2 →
    m2.map Prod.fst = if m.any (fun p => pyEq p.1 k) then m.map Prod.fst
                      else m.map Prod.fst ++ [k] := by
  intro k v m m2 h
  unfold fieldsInsert at h
  split at h
  · have h2 := Except.ok.inj h
    split at h2
    · next hc =>
        subst h2
        rw [if_pos hc]
        exact map_fst_replace k v m
    · next hc =>
        subst h2
        rw [if_neg hc]
        simp
  · simp at h

/-- A Python dict assignment preserves pairwise-distinct keys. -/
theorem fieldsInsert_distinct : ∀ (k : JsonVal) (v : FieldObj)
    (m m2 : FieldMap), fieldsInsert k v m = .ok m2 → KDistinct m →
    KDistinct m2 := by
  intro k v m m2 h hd
  unfold fieldsInsert at h
  split at h
  · have h2 := Except.ok.inj h
    split at h2
    · subst h2
      unfold KDistinct at hd ⊢
      rw [List.pairwise_map]
      refine hd.imp_of_mem ?_
      intro a b _ _ hab
      cases ha : pyEq a.1 k <;> cases hb : pyEq b.1 k <;>
        simp [ha, hb, hab]
    · next hc =>
        rw [Bool.not_eq_true] at hc
        subst h2
        unfold KDistinct at hd ⊢
        rw [List.pairwise_append]
        refine ⟨hd, by simp, ?_⟩
        intro a ha b hb
        have hb2 : b = (k, v) := by simpa using hb
        subst hb2
        have := List.any_eq_false.mp hc a ha
        simpa using this
  · simp at h

/-- The canonical-list extraction loop preserves pairwise-distinct keys. -/
theorem extractFromList_distinct : ∀ (fs : List JsonVal) (acc m : FieldMap),
    extractFromList fs acc = .ok m → KDistinct acc → KDistinct m := by
  intro fs
  induction fs with
  | nil =>
      intro acc m h hd
      have h2 := Except.ok.inj h
      subst h2
      exact hd
  | cons f rest ih =>
      intro acc m h hd
      cases f with
      | jobj kvs =>
          simp only [extractFromList] at h
          cases hins : fieldsInsert (resolveListName kvs) kvs acc with
          | error e => rw [hins] at h; cases h
          | ok m2 =>
              rw [hins] at h
              exact ih m2 m h (fieldsInsert_distinct _ _ _ _ hins hd)
      | jnull => exact ih _ _ (by simpa [extractFromList] using h) hd
      | jbool b => exact ih _ _ (by simpa [extractFromList] using h) hd
      | jint n => exact ih _ _ (by simpa [extractFromList] using h) hd
      | jstr s => exact ih _ _ (by simpa [extractFromList] using h) hd
      | jarr xs => exact ih _ _ (by simpa [extractFromList] using h) hd

/-- The raw_schema extraction loop preserves pairwise-distinct keys. -/
theorem extractFromListRaw_distinct : ∀ (fs : List JsonVal) (acc m : FieldMap),
    extractFromListRaw fs acc = .ok m → KDistinct acc → KDistinct m := by
  intro fs
  induction fs with
  | nil =>
      intro acc m h hd
      have h2 := Except.ok.inj h
      subst h2
      exact hd
  | cons f rest ih =>
      intro acc m h hd
      cases f with
      | jobj kvs =>
          simp only [extractFromListRaw] at h
          cases hins : fieldsInsert (resolveRawName kvs) kvs acc with
          | error e => rw [hins] at h; cases h
          | ok m2 =>
              rw [hins] at h
              exact ih m2 m h (fieldsInsert_distinct _ _ _ _ hins hd)
      | jnull => exact ih _ _ (by simpa [extractFromListRaw] using h) hd
      | jbool b => exact ih _ _ (by simpa [extractFromListRaw] using h) hd
      | jint n => exact ih _ _ (by simpa [extractFromListRaw] using h) hd
      | jstr s => exact ih _ _ (by simpa [extractFromListRaw] using h) hd
      | jarr xs => exact ih _ _ (by simpa [extractFromListRaw] using h) hd

/-- The legacy-dict extraction loop preserves pairwise-distinct keys. -/
theorem extractFromDict_distinct : ∀ (kvs : List (String × JsonVal))
    (acc m : FieldMap), extractFromDict kvs acc = .ok m → KDistinct acc →
    KDistinct m := by
  intro kvs
  induction kvs with
  | nil =>
      intro acc m h hd
      have h2 := Except.ok.inj h
      subst h2
      exact hd
  | cons p rest ih =>
      intro acc m h hd
      obtain ⟨k, meta⟩ := p
      simp only [extractFromDict] at h
      split at h
      · next m2 hins =>
          exact ih m2 m h (fieldsInsert_distinct _ _ _ _ hins hd)
      · simp at h

/-- The raw_schema fallback yields a map with pairwise-distinct keys. -/
theorem rawFallback_distinct : ∀ (s : List (String × JsonVal)) (m : FieldMap),
    rawFallback s = .ok m → KDistinct m := by
  intro s m h
  unfold rawFallback at h
  split at h
  · split at h
    · next fs _ => exact extractFromListRaw_distinct fs [] m h List.Pairwise.nil
    · have h2 := Except.ok.inj h; subst h2; exact List.Pairwise.nil
  · have h2 := Except.ok.inj h; subst h2; exact List.Pairwise.nil

/-- The first pass over the fields entry yields a map with pairwise-distinct
keys. -/
theorem fieldsPass_distinct : ∀ (s : List (String × JsonVal)) (m : FieldMap),
    fieldsPass s = .ok m → KDistinct m := by
  intro s m h
  unfold fieldsPass at h
  split at h
  · next fs _ => exact extractFromList_distinct fs [] m h List.Pairwise.nil
  · next kvs _ => exact extractFromDict_distinct kvs [] m h List.Pairwise.nil
  · have h2 := Except.ok.inj h; subst h2; exact List.Pairwise.nil

/-- Extraction always yields a map with pairwise-distinct keys. -/
theorem extract_fields_distinct : ∀ (s : List (String × JsonVal))
    (m : FieldMap), extract_fields_from_schema s = .ok m → KDistinct m := by
  intro s m h
  unfold extract_fields_from_schema at h
  split at h
  · have h2 := Except.ok.inj h; subst h2; exact List.Pairwise.nil
  · split at h
    · simp at h
    · next m1 hp =>
        split at h
        · exact rawFallback_distinct s m h
        · have h2 := Except.ok.inj h
          subst h2
          exact fieldsPass_distinct s m1 hp

/-- The old-side field map of compare_schemas has pairwise-distinct keys. -/
theorem oldSideFields_distinct :
    ∀ (o : Option (List (String × JsonVal))) (m : FieldMap),
    oldSideFields o = .ok m → KDistinct m := by
  intro o m h
  cases o with
  | none =>
      have h2 := Except.ok.inj h; subst h2; exact List.Pairwise.nil
  | some s =>
      unfold oldSideFields at h
      simp only [] at h
      split at h
      · have h2 := Except.ok.inj h; subst h2; exact List.Pairwise.nil
      · exact extract_fields_distinct s m h

/-- The new-side field map of compare_schemas has pairwise-distinct keys. -/
theorem newSideFields_distinct : ∀ (s : List (String × JsonVal))
    (m : FieldMap), newSideFields s = .ok m → KDistinct m := by
  intro s m h
  unfold newSideFields at h
  split at h
  · have h2 := Except.ok.inj h; subst h2; exact List.Pairwise.nil
  · exact extract_fields_distinct s m h

/-- On a map with pairwise-distinct keys, Python dict access finds the
stored value of a stored key. -/
theorem lookupP_of_mem : ∀ (k : JsonVal) (fo : FieldObj) (m : FieldMap),
    (k, fo) ∈ m → KDistinct m → lookupP k m = some fo := by
  intro k fo m hmem hd
  induction m with
  | nil => simp at hmem
  | cons p rest ih =>
      rcases List.mem_cons.mp hmem with h | h
      · subst h
        have hfind : List.find? (fun q => pyEq q.1 k) ((k, fo) :: rest) =
            some (k, fo) :=
          List.find?_cons_of_pos _ (by simpa using pyEq_refl k)
        simp [lookupP, hfind]
      · have hkey : pyEq p.1 k = false := by
          have hp := (List.pairwise_cons.mp hd).1 (k, fo) h
          simpa using hp
        have hfind : List.find? (fun q => pyEq q.1 k) (p :: rest) =
            List.find? (fun q => pyEq q.1 k) rest :=
          List.find?_cons_of_neg _ (by simp [hkey])
        have ihr := ih h (List.pairwise_cons.mp hd).2
        simp only [lookupP] at ihr ⊢
        rw [hfind]
        exact ihr

/-- On a map with pairwise-distinct keys, a stored key determines its
entry. -/
theorem key_unique : ∀ (m : FieldMap) (k : JsonVal) (fo : FieldObj),
    KDistinct m → (k, fo) ∈ m → ∀ p ∈ m, p.1 = k → p = (k, fo) := by
  intro m
  induction m with
  | nil => intro k fo _ hmem; simp at hmem
  | cons q rest ih =>
      intro k fo hd hmem p hp hpk
      obtain ⟨hq, hrest⟩ := List.pairwise_cons.mp hd
      rcases List.mem_cons.mp hmem with hm | hm
      · rcases List.mem_cons.mp hp with hp2 | hp2
        · rw [hp2, ← hm]
        · exfalso
          have := hq p hp2
          rw [← hm] at this
          simp only [hpk] at this
          rw [pyEq_refl k] at this
          cases this
      · rcases List.mem_cons.mp hp with hp2 | hp2
        · exfalso
          have := hq (k, fo) hm
          rw [hp2] at hpk
          simp only [← hpk] at this
          rw [pyEq_refl] at this
          cases this
        · exact ih k fo hrest hm p hp2 hpk

/-- Every changed entry takes its name from an old-side key. -/
theorem changedEntries_name_mem : ∀ (of nf : FieldMap) (e : ChangedEntry),
    e ∈ changedEntries of nf → ∃ p ∈ of, e.name = p.1 := by
  intro of nf e he
  unfold changedEntries at he
  rcases List.mem_filterMap.mp he with ⟨p, hp, hfp⟩
  have hpof : p ∈ of := (List.mem_filter.mp hp).1
  refine ⟨p, hpof, ?_⟩
  split at hfp
  · cases hfp
  · dsimp only at hfp
    split at hfp
    · have := Option.some.inj hfp
      rw [← this]
    · cases hfp

/-- A field stored on both sides whose type or nullable differs (after the
string/True defaulting) contributes its changed entry. -/
theorem changed_present : ∀ (of nf : FieldMap) (k : JsonVal)
    (fo fn : FieldObj), KDistinct nf → (k, fo) ∈ of → (k, fn) ∈ nf →
    (pyEq (objGetD fo "type" (.jstr "string"))
          (objGetD fn "type" (.jstr "string")) = false ∨
     pyEq (objGetD fo "nullable" (.jbool true))
          (objGetD fn "nullable" (.jbool true)) = false) →
    (ChangedEntry.mk k k
      ⟨objGetD fo "type" (.jstr "string"), objGetD fo "nullable" (.jbool true)⟩
      ⟨objGetD fn "type" (.jstr "string"), objGetD fn "nullable" (.jbool true)⟩
      (objGetD fo "type" (.jstr "string"))
      (objGetD fn "type" (.jstr "string"))) ∈ changedEntries of nf := by
  intro of nf k fo fn hdn hmo hmn hcond
  unfold changedEntries
  apply List.mem_filterMap.mpr
  refine ⟨(k, fo), ?_, ?_⟩
  · apply List.mem_filter.mpr
    refine ⟨hmo, ?_⟩
    apply List.any_eq_true.mpr
    exact ⟨k, List.mem_map.mpr ⟨(k, fn), hmn, rfl⟩, pyEq_refl k⟩
  · rw [lookupP_of_mem k fn nf hmn hdn]
    have hcond2 : (!(pyEq (objGetD fo "type" (.jstr "string"))
          (objGetD fn "type" (.jstr "string"))) ||
        !(pyEq (objGetD fo "nullable" (.jbool true))
          (objGetD fn "nullable" (.jbool true)))) = true := by
      rcases hcond with hc | hc <;> simp [hc]
    simp only [hcond2, if_true]

/-- A field stored on both sides with equal type and nullable (after
defaulting) contributes no changed entry. -/
theorem changed_absent : ∀ (of nf : FieldMap) (k : JsonVal)
    (fo fn : FieldObj), KDistinct of → KDistinct nf →
    (k, fo) ∈ of → (k, fn) ∈ nf →
    pyEq (objGetD fo "type" (.jstr "string"))
         (objGetD fn "type" (.jstr "string")) = true →
    pyEq (objGetD fo "nullable" (.jbool true))
         (objGetD fn "nullable" (.jbool true)) = true →
    ∀ e ∈ changedEntries of nf, e.name ≠ k := by
  intro of nf k fo fn hdo hdn hmo hmn htype hnull e he hname
  unfold changedEntries at he
  rcases List.mem_filterMap.mp he with ⟨p, hp, hfp⟩
  have hpof : p ∈ of := (List.mem_filter.mp hp).1
  have hpk : p.1 = k := by
    split at hfp
    · cases hfp
    · dsimp only at hfp
      split at hfp
      · have := Option.some.inj hfp
        rw [← this] at hname
        exact hname
      · cases hfp
  have hpeq : p = (k, fo) := key_unique of k fo hdo hmo p hpof hpk
  subst hpeq
  rw [lookupP_of_mem k fn nf hmn hdn] at hfp
  simp only [htype, hnull] at hfp
  simp at hfp

/-- The old-side guard of compare_schemas is extensionally plain
extraction. -/
theorem oldSide_eq_extract : ∀ s,
    oldSideFields (some s) = extract_fields_from_schema s := by
  intro s
  cases hse : s.isEmpty with
  | false => simp [oldSideFields, hse]
  | true =>
      have hs : s = [] := List.isEmpty_iff.mp hse
      subst hs
      rfl

/-- The new-side guard of compare_schemas is extensionally plain
extraction. -/
theorem newSide_eq_extract : ∀ s,
    newSideFields s = extract_fields_from_schema s := by
  intro s
  cases hse : s.isEmpty with
  | false => simp [newSideFields, hse]
  | true =>
      have hs : s = [] := List.isEmpty_iff.mp hse
      subst hs
      rfl

/-- C7: diffing a schema descriptor against itself yields empty added,
removed and changed lists; and in general a field present on both sides
with unchanged type and nullability appears nowhere in the diff. -/
theorem C7_diff_refl :
    (∀ (s : List (String × JsonVal)) (m : FieldMap),
      extract_fields_from_schema s = .ok m →
      compare_schemas (some s) s = .ok (diffCore m m) ∧
      (diffCore m m).added = [] ∧ (diffCore m m).removed = [] ∧
      (diffCore m m).changed = []) ∧
    (∀ (of nf : FieldMap) (k : JsonVal) (fo fn : FieldObj),
      KDistinct of → KDistinct nf → (k, fo) ∈ of → (k, fn) ∈ nf →
      pyEq (objGetD fo "type" (.jstr "string"))
           (objGetD fn "type" (.jstr "string")) = true →
      pyEq (objGetD fo "nullable" (.jbool true))
           (objGetD fn "nullable" (.jbool true)) = true →
      (∀ p ∈ addedPairs of nf, p.1 ≠ k) ∧
      (∀ p ∈ removedPairs of nf, p.1 ≠ k) ∧
      (∀ e ∈ changedEntries of nf, e.name ≠ k)) := by
  constructor
  · intro s m h
    have hd := extract_fields_distinct s m h
    have hcomp : compare_schemas (some s) s = .ok (diffCore m m) := by
      unfold compare_schemas
      rw [oldSide_eq_extract, newSide_eq_extract, h]
    have hadded : addedPairs m m = [] := by
      apply List.filter_eq_nil_iff.mpr
      intro p hp
      have hmem : memKeyP p.1 (m.map Prod.fst) = true :=
        List.any_eq_true.mpr ⟨p.1, List.mem_map.mpr ⟨p, hp, rfl⟩,
          pyEq_refl p.1⟩
      simp [hmem]
    have hremoved : removedPairs m m = [] := by
      apply List.filter_eq_nil_iff.mpr
      intro p hp
      have hmem : memKeyP p.1 (m.map Prod.fst) = true :=
        List.any_eq_true.mpr ⟨p.1, List.mem_map.mpr ⟨p, hp, rfl⟩,
          pyEq_refl p.1⟩
      simp [hmem]
    have hchanged : changedEntries m m = [] := by
      unfold changedEntries
      apply List.filterMap_eq_nil_iff.mpr
      intro p hp
      have hpm : p ∈ m := (List.mem_filter.mp hp).1
      have hlk : lookupP p.1 m = some p.2 :=
        lookupP_of_mem p.1 p.2 m (by simpa using hpm) hd
      rw [hlk]
      simp [pyEq_refl]
    exact ⟨hcomp, by simp [diffCore, hadded], by simp [diffCore, hremoved],
      by simp [diffCore, hchanged]⟩
  · intro of nf k fo fn hdo hdn hmo hmn htype hnull
    refine ⟨?_, ?_, changed_absent of nf k fo fn hdo hdn hmo hmn htype hnull⟩
    · intro p hp hpk
      have hflt := (List.mem_filter.mp hp).2
      rw [hpk] at hflt
      have hmem : memKeyP k (of.map Prod.fst) = true :=
        List.any_eq_true.mpr ⟨k, List.mem_map.mpr ⟨(k, fo), hmo, rfl⟩,
          pyEq_refl k⟩
      rw [hmem] at hflt
      simp at hflt
    · intro p hp hpk
      have hflt := (List.mem_filter.mp hp).2
      rw [hpk] at hflt
      have hmem : memKeyP k (nf.map Prod.fst) = true :=
        List.any_eq_true.mpr ⟨k, List.mem_map.mpr ⟨(k, fn), hmn, rfl⟩,
          pyEq_refl k⟩
      rw [hmem] at hflt
      simp at hflt

/-- Witness for C7 on the concrete one-field schema. -/
theorem C7_diff_refl_witness :
    extract_fields_from_schema schemaOne = .ok mOne ∧
    compare_schemas (some schemaOne) schemaOne = .ok (diffCore mOne mOne) ∧
    (diffCore mOne mOne).added = [] ∧
    (diffCore mOne mOne).removed = [] ∧
    (diffCore mOne mOne).changed = [] := by
  have h := C7_diff_refl.1 schemaOne mOne rfl
  exact ⟨rfl, h.1, h.2.1, h.2.2.1, h.2.2.2⟩

/-- C8: when the old side is absent, falsy, or extracts to zero fields (no
recognizable field shape), compare_schemas returns successfully with every
new-side field in added and empty removed and changed lists, and old_count
is zero. -/
theorem C8_null_old : ∀ (old_schema : Option (List (String × JsonVal)))
    (new_schema : List (String × JsonVal)) (nf : FieldMap),
    oldSideFields old_schema = .ok [] →
    newSideFields new_schema = .ok nf →
    compare_schemas old_schema new_schema = .ok (diffCore [] nf) ∧
    (diffCore [] nf).added = nf.map Prod.snd ∧
    (diffCore [] nf).removed = [] ∧
    (diffCore [] nf).changed = [] ∧
    (diffCore [] nf).old_count = 0 := by
  intro old_schema new_schema nf h1 h2
  refine ⟨?_, ?_, ?_, ?_, rfl⟩
  · unfold compare_schemas
    rw [h1, h2]
  · have hall : addedPairs [] nf = nf := by
      apply List.filter_eq_self.mpr
      intro p _
      simp [memKeyP]
    simp [diffCore, hall]
  · simp [diffCore, removedPairs]
  · simp [diffCore, changedEntries]

/-- Witness for C8: a junk old schema against the one-field schema. -/
theorem C8_null_old_witness :
    oldSideFields (some schemaJunk) = .ok [] ∧
    newSideFields schemaOne = .ok mOne ∧
    compare_schemas (some schemaJunk) schemaOne = .ok (diffCore [] mOne) ∧
    (diffCore [] mOne).added = mOne.map Prod.snd ∧
    (diffCore [] mOne).removed = [] ∧
    (diffCore [] mOne).changed = [] := by
  have h := C8_null_old (some schemaJunk) schemaOne mOne rfl rfl
  exact ⟨rfl, rfl, h.1, h.2.1, h.2.2.1, h.2.2.2.1⟩

/-- C9: a field name stored on both extracted sides is reported in changed
exactly when its type or nullable differ under Python equality, after the
missing-type default "string" and missing-nullable default True, and the
entry carries the old and new type/nullable pairs. -/
theorem C9_changed_iff : ∀ (old_schema new_schema : List (String × JsonVal))
    (of nf : FieldMap) (k : JsonVal) (fo fn : FieldObj) (d : SchemaDiffResult),
    oldSideFields (some old_schema) = .ok of →
    newSideFields new_schema = .ok nf →
    (k, fo) ∈ of → (k, fn) ∈ nf →
    compare_schemas (some old_schema) new_schema = .ok d →
    ((∃ e ∈ d.changed, e.name = k ∧
        e.old = ⟨objGetD fo "type" (.jstr "string"),
                 objGetD fo "nullable" (.jbool true)⟩ ∧
        e.new = ⟨objGetD fn "type" (.jstr "string"),
                 objGetD fn "nullable" (.jbool true)⟩) ↔
      (pyEq (objGetD fo "type" (.jstr "string"))
            (objGetD fn "type" (.jstr "string")) = false ∨
       pyEq (objGetD fo "nullable" (.jbool true))
            (objGetD fn "nullable" (.jbool true)) = false)) := by
  intro old_schema new_schema of nf k fo fn d h1 h2 hmo hmn hcomp
  have hdo := oldSideFields_distinct _ _ h1
  have hdn := newSideFields_distinct _ _ h2
  have hd : d = diffCore of nf := by
    unfold compare_schemas at hcomp
    rw [h1, h2] at hcomp
    exact (Except.ok.inj hcomp).symm
  subst hd
  constructor
  · rintro ⟨e, he, hname, _, _⟩
    by_contra hcon
    push_neg at hcon
    have htype : pyEq (objGetD fo "type" (.jstr "string"))
        (objGetD fn "type" (.jstr "string")) = true := by
      cases hq : pyEq (objGetD fo "type" (.jstr "string"))
          (objGetD fn "type" (.jstr "string")) with
      | true => rfl
      | false => exact absurd hq hcon.1
    have hnull : pyEq (objGetD fo "nullable" (.jbool true))
        (objGetD fn "nullable" (.jbool true)) = true := by
      cases hq : pyEq (objGetD fo "nullable" (.jbool true))
          (objGetD fn "nullable" (.jbool true)) with
      | true => rfl
      | false => exact absurd hq hcon.2
    exact changed_absent of nf k fo fn hdo hdn hmo hmn htype hnull e he hname
  · intro hcond
    exact ⟨_, changed_present of nf k fo fn hdn hmo hmn hcond, rfl, rfl, rfl⟩

/-- Witness for C9: diffing the one-field integer schema against its
string-typed variant reports field a as changed with the two type pairs. -/
theorem C9_changed_iff_witness :
    ((.jstr "a", [("name", .jstr "a"), ("type", .jstr "integer"),
                  ("nullable", .jbool false)]) ∈ mOne) ∧
    ((.jstr "a", [("name", .jstr "a"), ("type", .jstr "string"),
                  ("nullable", .jbool false)]) ∈ mOneStr) ∧
    (∃ e ∈ (diffCore mOne mOneStr).changed, e.name = .jstr "a" ∧
       e.old = ⟨.jstr "integer", .jbool false⟩ ∧
       e.new = ⟨.jstr "string", .jbool false⟩) := by
  refine ⟨by simp [mOne], by simp [mOneStr], ?_⟩
  have h := C9_changed_iff schemaOne schemaOneStr mOne mOneStr (.jstr "a")
    [("name", .jstr "a"), ("type", .jstr "integer"),
     ("nullable", .jbool false)]
    [("name", .jstr "a"), ("type", .jstr "string"),
     ("nullable", .jbool false)]
    (diffCore mOne mOneStr) rfl rfl (by simp [mOne]) (by simp [mOneStr]) rfl
  exact h.mpr (Or.inl (by simp [objGetD, List.lookup, pyEq]))

/-- Scanning pairs by key equals scanning the projected key list. -/
theorem any_keys : ∀ (acc : FieldMap) (K : JsonVal),
    (acc.any fun p => pyEq p.1 K) =
      ((acc.map Prod.fst).any fun n => pyEq n K) := by
  intro acc K
  induction acc with
  | nil => rfl
  | cons q qs ih => simp [ih]

/-- The keys accumulated by the canonical-list branch are the deduplicated
resolved names appended to the accumulator keys. -/
theorem extractFromList_keys : ∀ (fs : List JsonVal) (acc m : FieldMap),
    extractFromList fs acc = .ok m →
    m.map Prod.fst = (resolvedListNames fs).foldl
      (fun ks k => if ks.any (fun n => pyEq n k) then ks else ks ++ [k])
      (acc.map Prod.fst) := by
  intro fs
  induction fs with
  | nil =>
      intro acc m h
      have h2 := Except.ok.inj h
      subst h2
      simp [resolvedListNames]
  | cons f rest ih =>
      intro acc m h
      cases f with
      | jobj kvs =>
          simp only [extractFromList] at h
          split at h
          · next m2 hins =>
              have hk := fieldsInsert_keys _ _ _ _ hins
              have hrec := ih m2 m h
              rw [hrec, hk]
              have hnames : resolvedListNames (JsonVal.jobj kvs :: rest) =
                  resolveListName kvs :: resolvedListNames rest := by
                simp [resolvedListNames]
              rw [hnames]
              simp only [List.foldl_cons]
              congr 1
              rw [← any_keys]
          · simp at h
      | jnull =>
          have hh : extractFromList rest acc = .ok m := by
            simpa [extractFromList] using h
          rw [ih acc m hh]
          simp [resolvedListNames]
      | jbool b =>
          have hh : extractFromList rest acc = .ok m := by
            simpa [extractFromList] using h
          rw [ih acc m hh]
          simp [resolvedListNames]
      | jint n =>
          have hh : extractFromList rest acc = .ok m := by
            simpa [extractFromList] using h
          rw [ih acc m hh]
          simp [resolvedListNames]
      | jstr s =>
          have hh : extractFromList rest acc = .ok m := by
            simpa [extractFromList] using h
          rw [ih acc m hh]
          simp [resolvedListNames]
      | jarr xs =>
          have hh : extractFromList rest acc = .ok m := by
            simpa [extractFromList] using h
          rw [ih acc m hh]
          simp [resolvedListNames]

/-- C10: a list-form field descriptor lacking both name and path keys is
keyed under the literal "unknown"; such descriptors collapse into one
canonical field (shown on the concrete two-descriptor schema); and the
counts in the diff result equal the number of distinct resolved field
names (the extracted map length), not the length of the fields list. -/
theorem C10_unknown_collapse :
    (∀ f : FieldObj, f.lookup "name" = none → f.lookup "path" = none →
      resolveListName f = .jstr "unknown") ∧
    (extract_fields_from_schema schemaAnon =
      .ok [(.jstr "unknown", [("type", .jstr "string")])]) ∧
    (∀ (fs : List JsonVal) (m : FieldMap), extractFromList fs [] = .ok m →
      m.map Prod.fst = pyDedup (resolvedListNames fs) ∧
      m.length = (pyDedup (resolvedListNames fs)).length) ∧
    (∀ (old_schema : Option (List (String × JsonVal)))
       (new_schema : List (String × JsonVal)) (of nf : FieldMap)
       (d : SchemaDiffResult),
      oldSideFields old_schema = .ok of → newSideFields new_schema = .ok nf →
      compare_schemas old_schema new_schema = .ok d →
      d.old_count = of.length ∧ d.new_count = nf.length) := by
  refine ⟨?_, ?_, ?_, ?_⟩
  · intro f h1 h2
    simp [resolveListName, objGetD, pyOr, pyTruthy, h1, h2]
  · simp [extract_fields_from_schema, schemaAnon, fieldsPass, extractFromList,
      fieldsInsert, resolveListName, objGetD, List.lookup, pyOr, pyTruthy,
      pyHashable, pyEq, rawFallback]
  · intro fs m h
    have hk := extractFromList_keys fs [] m h
    constructor
    · rw [hk]; rfl
    · have hlen : m.length = (m.map Prod.fst).length :=
        (List.length_map _ _).symm
      rw [hlen, hk]; rfl
  · intro old_schema new_schema of nf d h1 h2 hcomp
    unfold compare_schemas at hcomp
    rw [h1, h2] at hcomp
    have hd := Except.ok.inj hcomp
    rw [← hd]
    exact ⟨rfl, rfl⟩

/-- Witness for C10 on the two anonymous descriptors of schemaAnon: both
resolve to "unknown" and collapse to a single canonical field. -/
theorem C10_unknown_collapse_witness :
    resolveListName [("type", .jstr "integer")] = .jstr "unknown" ∧
    ([(JsonVal.jstr "unknown",
       [("type", JsonVal.jstr "string")])] : FieldMap).length =
      (pyDedup (resolvedListNames
        [.jobj [("type", .jstr "integer")],
         .jobj [("type", .jstr "string")]])).length := by
  refine ⟨C10_unknown_collapse.1 [("type", .jstr "integer")] rfl rfl, ?_⟩
  exact (C10_unknown_collapse.2.2.1
    [.jobj [("type", .jstr "integer")], .jobj [("type", .jstr "string")]]
    [(.jstr "unknown", [("type", .jstr "string")])]
    (by simp [extractFromList, fieldsInsert, resolveListName, objGetD,
      List.lookup, pyOr, pyTruthy, pyHashable, pyEq])).2

end Dataverse







